import Mathlib

/-!
Shallow embedding of the klap4 backend's catalog addressing layer
(src/klap4/db_entities/album.py, src/klap4/db.py) together with the
collaborator functions the spec describes (identifier codec, album letter
allocation, entity-store lookup), and proofs of the spec's claims about them.

Strings are modelled as lists of characters, wall-clock times as integer
second counts, and the SQLAlchemy session as an explicit store value.
-/

namespace Klap4

/-- ASCII decimal digit test, used by the tag codec (the digits of a tag are
plain ASCII digits). -/
def isDigitChar (c : Char) : Bool :=
  48 ≤ c.toNat && c.toNat ≤ 57

/-- Numeric value of an ASCII digit character. -/
def digitVal (c : Char) : Nat := c.toNat - 48

/-- Character for a single decimal digit value. -/
def digitChar (d : Nat) : Char := Char.ofNat (d + 48)

/-- Decimal rendering of a natural number, most significant digit first
(models Python str(n) on a nonnegative integer). -/
def natToDigits (n : Nat) : List Char :=
  if n < 10 then [digitChar n]
  else natToDigits (n / 10) ++ [digitChar (n % 10)]
termination_by n
decreasing_by
  exact Nat.div_lt_self (by omega) (by omega)

/-- Parse a digit list, most significant digit first, as a natural number
(models Python int(s) on a digit string). -/
def digitsToNat (ds : List Char) : Nat :=
  ds.foldl (fun acc c => acc * 10 + digitVal c) 0

/-- Structured parts of a catalog tag as produced by the identifier codec. -/
structure DecomposedTag where
  genre_abbr : List Char
  artist_num : Nat
  album_letter : Option Char
deriving DecidableEq

/-- Modelled from the spec: the identifier codec's decompose function
(klap4.db_entities.decompose_tag, whose module is not under src/). Contract
from the spec: the first two characters are always the genre abbreviation; the
following digits (one or more) are parsed as the artist number; if exactly one
trailing non-digit character remains, it is the album letter; a string shorter
than 3 characters, a non-numeric artist-number segment, or more than one
character after the digits is a malformed tag (InvalidTagFormat, modelled as
none). -/
def decompose_tag (tag : List Char) : Option DecomposedTag :=
  match tag with
  | g1 :: g2 :: rest =>
    if rest.isEmpty then none
    else
      let ds := rest.takeWhile isDigitChar
      let trailing := rest.dropWhile isDigitChar
      if ds.isEmpty then none
      else
        match trailing with
        | [] => some ⟨[g1, g2], digitsToNat ds, none⟩
        | [c] => some ⟨[g1, g2], digitsToNat ds, some c⟩
        | _ => none
  | _ => none

/-- Modelled from the spec: the identifier codec's compose function — pure
concatenation of the genre abbreviation, the decimal artist number and the
optional album letter. -/
def compose_tag (genre_abbr : List Char) (artist_num : Nat) (album_letter : Option Char) : List Char :=
  genre_abbr ++ natToDigits artist_num ++
    (match album_letter with
     | some c => [c]
     | none => [])

/-- Error kinds surfaced by entity construction (spec section 7): malformed tag,
missing mandatory ancestor, exhausted letter space, and a missing keyword where
the constructor dereferences one (Python would raise KeyError). -/
inductive CatalogError where
  | invalidTagFormat
  | artistNotFound
  | letterSpaceExhausted
  | missingField
deriving DecidableEq

/-- A persisted Artist row: composite key (genre_abbr, number). -/
structure ArtistRec where
  genre_abbr : List Char
  number : Nat
deriving DecidableEq

/-- A persisted Album row: composite key (genre_abbr, artist_num, letter) plus
the non-key columns of the album table. -/
structure AlbumRec where
  genre_abbr : List Char
  artist_num : Nat
  letter : Char
  name : List Char
  date_added : Int
  missing : Bool
deriving DecidableEq

/-- The entity store: the artist and album rows visible to relationship
resolution and letter allocation. -/
structure Store where
  artists : List ArtistRec
  albums : List AlbumRec

/-- Resolution of the Album.artist relationship: equality on both genre_abbr
and artist_num simultaneously (the primaryjoin in album.py), never a partial
key match. -/
def find_artist (store : Store) (g : List Char) (n : Nat) : Option ArtistRec :=
  store.artists.find? (fun a => a.genre_abbr == g && a.number == n)

/-- Letters of the albums currently persisted under one artist (the reverse
Artist.albums relationship restricted to its letter column). -/
def artist_album_letters (store : Store) (g : List Char) (n : Nat) : List Char :=
  (store.albums.filter (fun al => al.genre_abbr == g && al.artist_num == n)).map
    (fun al => al.letter)

/-- The ordered alphabet the letter allocator draws from. -/
def alphabet : List Char :=
  ['a', 'b', 'c', 'd', 'e', 'f', 'g', 'h', 'i', 'j', 'k', 'l', 'm',
   'n', 'o', 'p', 'q', 'r', 's', 't', 'u', 'v', 'w', 'x', 'y', 'z']

/-- Modelled from the spec: Artist.next_album_letter (the artist module is not
under src/). Returns the lexicographically smallest letter in a..z not
currently in use by the artist's albums, or none when all 26 letters are taken
(LetterSpaceExhausted). -/
def next_album_letter (used : List Char) : Option Char :=
  alphabet.find? (fun c => !(used.contains c))

/-- The keyword-argument map accepted by Album's constructor; a field is none
when the caller did not supply that keyword. -/
structure AlbumKwargs where
  id : Option (List Char)
  genre_abbr : Option (List Char)
  artist_num : Option Nat
  letter : Option Char
  name : Option (List Char)
  date_added : Option Int
  missing : Option Bool
deriving DecidableEq

/-- First stage of Album's constructor: when an id keyword is present, its tag
is decomposed, genre_abbr and artist_num are overwritten from the tag, the
letter is overwritten only when the tag carries one, and the id keyword is
dropped. A malformed tag surfaces InvalidTagFormat. -/
def album_resolve_kwargs (kw : AlbumKwargs) : Except CatalogError AlbumKwargs :=
  match kw.id with
  | none => Except.ok kw
  | some tag =>
    match decompose_tag tag with
    | none => Except.error CatalogError.invalidTagFormat
    | some d =>
      Except.ok { kw with
        id := none
        genre_abbr := some d.genre_abbr
        artist_num := some d.artist_num
        letter :=
          match d.album_letter with
          | some c => some c
          | none => kw.letter }

/-- Second stage of Album's constructor: when no letter keyword is present, the
owning artist is resolved from (genre_abbr, artist_num) — ArtistNotFound when
absent (get_entity_from_tag is modelled from the spec: entity store lookup by
key) — and the letter allocator supplies the letter (LetterSpaceExhausted when
it cannot). Dereferencing a keyword the caller never supplied is a
missing-field error. -/
def album_resolve_letter (store : Store) (kw : AlbumKwargs) : Except CatalogError AlbumKwargs :=
  match kw.letter with
  | some _ => Except.ok kw
  | none =>
    match kw.genre_abbr, kw.artist_num with
    | some g, some n =>
      match find_artist store g n with
      | none => Except.error CatalogError.artistNotFound
      | some a =>
        match next_album_letter (artist_album_letters store a.genre_abbr a.number) with
        | none => Except.error CatalogError.letterSpaceExhausted
        | some c => Except.ok { kw with letter := some c }
    | _, _ => Except.error CatalogError.missingField

/-- Third stage of Album's constructor: merge of the defaults dict under the
caller's kwargs — date_added defaults to now, missing defaults to false, and a
caller-supplied value wins. -/
def album_apply_defaults (now : Int) (kw : AlbumKwargs) : AlbumKwargs :=
  { kw with
    date_added := some (kw.date_added.getD now)
    missing := some (kw.missing.getD false) }

/-- Album.__init__: the three stages in source order; the result is the final
attribute map handed to the base-class constructor. -/
def album_init (store : Store) (now : Int) (kw : AlbumKwargs) : Except CatalogError AlbumKwargs :=
  ((album_resolve_kwargs kw).bind (album_resolve_letter store)).map (album_apply_defaults now)

/-- Modelled from the spec: the artist's derived tag identifier, genre
abbreviation followed by the decimal artist number (the artist module is not
under src/). -/
def artist_tag (a : ArtistRec) : List Char :=
  a.genre_abbr ++ natToDigits a.number

/-- Album.id: self.artist.id + self.letter. Computed on read from the
persisted key fields through the artist relationship; none when that
relationship resolves to no artist (the Python property would fail
dereferencing None). -/
def album_id (store : Store) (al : AlbumRec) : Option (List Char) :=
  (find_artist store al.genre_abbr al.artist_num).map (fun a => artist_tag a ++ [al.letter])

/-- Seconds per day; wall-clock times are modelled as integer second counts. -/
def secondsPerDay : Int := 86400

/-- Album.is_new: datetime.now() - date_added < timedelta(days=30*6). -/
def is_new (now : Int) (date_added : Int) : Bool :=
  now - date_added < 30 * 6 * secondsPerDay

/-- The keyword-argument map accepted by AlbumReview's constructor. -/
structure AlbumReviewKwargs where
  genre_abbr : Option (List Char)
  artist_num : Option Nat
  album_letter : Option Char
  dj_id : Option (List Char)
  date_entered : Option Int
  content : Option (List Char)
deriving DecidableEq

/-- AlbumReview.__init__: when a date_entered keyword is present it is
overwritten with the current time; when absent, nothing is substituted and the
attribute stays unset. The result is the attribute map handed to the
base-class constructor. -/
def album_review_init (now : Int) (kw : AlbumReviewKwargs) : AlbumReviewKwargs :=
  match kw.date_entered with
  | some _ => { kw with date_entered := some now }
  | none => kw

/-- A logging record as the deferred log handler receives it (the fields
DBHandler.emit reads off the record). -/
structure LogRecord where
  created : Int
  name : List Char
  levelname : List Char
  message : List Char
deriving DecidableEq

/-- A software_log row as DBHandler.emit writes it. -/
structure SoftwareLog where
  timestamp : Int
  tag : List Char
  level : List Char
  message : List Char
deriving DecidableEq

/-- The SoftwareLog row built from a record inside DBHandler.emit. -/
def toSoftwareLog (r : LogRecord) : SoftwareLog :=
  ⟨r.created, r.name, r.levelname, r.message⟩

/-- The state the deferred log handler acts on: whether klap4.db.Session is
connected, the handler's backlog, and the rows reaching the database, in
write order. -/
structure DBState where
  connected : Bool
  backlog : List LogRecord
  store : List SoftwareLog
deriving DecidableEq

/-- The session-add-commit tail of DBHandler.emit: one row appended to the
database. -/
def writeRecord (s : DBState) (r : LogRecord) : DBState :=
  { s with store := s.store ++ [toSoftwareLog r] }

/-- DBHandler.emit called with recursing=True (as catchup does): when not
connected it returns without touching the backlog, otherwise it writes the
record. -/
def emitRecursing (s : DBState) (r : LogRecord) : DBState :=
  if s.connected then writeRecord s r else s

/-- DBHandler.catchup: while the backlog is nonempty, emit its head with
recursing=True, then pop the head. -/
def catchup (s : DBState) : DBState :=
  match h : s.backlog with
  | [] => s
  | r :: rest => catchup { emitRecursing s r with backlog := rest }
termination_by s.backlog.length
decreasing_by
  simp [emitRecursing, writeRecord, h]

/-- DBHandler.emit as callers invoke it (recursing=False): when not connected,
append the record to the backlog and return; otherwise first catch up a
nonempty backlog, then write this record. -/
def emit (s : DBState) (r : LogRecord) : DBState :=
  if s.connected = false then
    { s with backlog := s.backlog ++ [r] }
  else
    writeRecord (if s.backlog.length > 0 then catchup s else s) r

/-- klap4.db.connect: installs the session (so is_connected becomes true) and
then lets the handler catch up its backlog. -/
def connectDB (s : DBState) : DBState :=
  catchup { s with connected := true }

/-- A digit segment is free of leading zeros: it is the single digit 0 or does
not start with the digit 0. The decimal rendering of a number never carries a
leading zero, so this is the shape of digit segments the codec can reproduce. -/
def noLeadingZero (ds : List Char) : Bool :=
  ds == ['0'] || ds.head? != some '0'

/-- Unfolding equation for natToDigits below ten. -/
theorem natToDigits_lt_ten (n : Nat) (h : n < 10) : natToDigits n = [digitChar n] := by
  rw [natToDigits, if_pos h]

/-- Unfolding equation for natToDigits at ten and above. -/
theorem natToDigits_ge_ten (n : Nat) (h : ¬ n < 10) :
    natToDigits n = natToDigits (n / 10) ++ [digitChar (n % 10)] := by
  rw [natToDigits, if_neg h]

/-- Characters of decimal digit values are digit characters. -/
theorem isDigitChar_digitChar (d : Nat) (h : d < 10) : isDigitChar (digitChar d) = true := by
  interval_cases d <;> decide

/-- Reading back the value of a decimal digit character. -/
theorem digitVal_digitChar (d : Nat) (h : d < 10) : digitVal (digitChar d) = d := by
  interval_cases d <;> decide

/-- A digit character is recovered from its value. -/
theorem digitChar_digitVal (c : Char) (h : isDigitChar c = true) : digitChar (digitVal c) = c := by
  have h48 : 48 ≤ c.toNat := by
    simp only [isDigitChar, Bool.and_eq_true, decide_eq_true_eq] at h
    exact h.1
  unfold digitChar digitVal
  rw [Nat.sub_add_cancel h48, Char.ofNat_toNat]

/-- Digit characters have digit values below ten. -/
theorem digitVal_lt_ten (c : Char) (h : isDigitChar c = true) : digitVal c < 10 := by
  simp only [isDigitChar, Bool.and_eq_true, decide_eq_true_eq] at h
  unfold digitVal
  omega

/-- Every character of a decimal rendering is a digit character. -/
theorem natToDigits_all_digit (n : Nat) : ∀ c ∈ natToDigits n, isDigitChar c = true := by
  induction n using Nat.strong_induction_on with
  | _ n ih =>
    by_cases h : n < 10
    · rw [natToDigits_lt_ten n h]
      intro c hc
      rw [List.mem_singleton] at hc
      subst hc
      exact isDigitChar_digitChar n h
    · rw [natToDigits_ge_ten n h]
      intro c hc
      rcases List.mem_append.mp hc with hc | hc
      · exact ih (n / 10) (Nat.div_lt_self (by omega) (by omega)) c hc
      · rw [List.mem_singleton] at hc
        subst hc
        exact isDigitChar_digitChar _ (Nat.mod_lt _ (by omega))

/-- A decimal rendering is never empty. -/
theorem natToDigits_ne_nil (n : Nat) : natToDigits n ≠ [] := by
  by_cases h : n < 10
  · rw [natToDigits_lt_ten n h]
    simp
  · rw [natToDigits_ge_ten n h]
    simp

/-- Parsing after appending one digit character to the rendering. -/
theorem digitsToNat_append (ds : List Char) (c : Char) :
    digitsToNat (ds ++ [c]) = digitsToNat ds * 10 + digitVal c := by
  simp [digitsToNat, List.foldl_append]

/-- Parsing a decimal rendering recovers the number. -/
theorem digitsToNat_natToDigits (n : Nat) : digitsToNat (natToDigits n) = n := by
  induction n using Nat.strong_induction_on with
  | _ n ih =>
    by_cases h : n < 10
    · rw [natToDigits_lt_ten n h]
      simpa [digitsToNat] using digitVal_digitChar n h
    · rw [natToDigits_ge_ten n h, digitsToNat_append,
          ih (n / 10) (Nat.div_lt_self (by omega) (by omega)),
          digitVal_digitChar _ (Nat.mod_lt _ (by omega))]
      omega

/-- The fold underlying digit parsing never decreases below its accumulator. -/
theorem le_foldl_digits (cs : List Char) (acc : Nat) :
    acc ≤ cs.foldl (fun acc c => acc * 10 + digitVal c) acc := by
  induction cs generalizing acc with
  | nil => exact Nat.le_refl acc
  | cons c cs ih =>
    refine Nat.le_trans ?_ (ih (acc * 10 + digitVal c))
    have : acc ≤ acc * 10 := by omega
    omega

/-- A digit character other than 0 has a positive value. -/
theorem digitVal_pos (c : Char) (h : isDigitChar c = true) (hne : c ≠ '0') : 1 ≤ digitVal c := by
  simp only [isDigitChar, Bool.and_eq_true, decide_eq_true_eq] at h
  by_contra hlt
  have h48 : c.toNat = 48 := by unfold digitVal at hlt; omega
  have hc : c = Char.ofNat 48 := by rw [← h48]; exact (Char.ofNat_toNat c).symm
  exact hne (hc.trans (by decide))

/-- The parse of a digit list whose leading digit is not 0 is positive. -/
theorem digitsToNat_pos (c : Char) (cs : List Char) (h : isDigitChar c = true)
    (hne : c ≠ '0') : 1 ≤ digitsToNat (c :: cs) := by
  have : digitsToNat (c :: cs) = cs.foldl (fun acc c => acc * 10 + digitVal c) (digitVal c) := by
    simp [digitsToNat]
  rw [this]
  exact Nat.le_trans (digitVal_pos c h hne) (le_foldl_digits cs (digitVal c))

/-- Rendering the parse of a digit list without leading zeros gives the list
back. -/
theorem natToDigits_digitsToNat : ∀ ds : List Char, ds ≠ [] →
    (∀ c ∈ ds, isDigitChar c = true) → noLeadingZero ds = true →
    natToDigits (digitsToNat ds) = ds := by
  intro ds
  induction ds using List.reverseRecOn with
  | nil => intro hne _ _; exact absurd rfl hne
  | append_singleton a c ih =>
    intro _ hdig hnlz
    have hc : isDigitChar c = true := hdig c (by simp)
    have hvc : digitVal c < 10 := digitVal_lt_ten c hc
    rw [digitsToNat_append]
    match a with
    | [] =>
      have h0 : digitsToNat ([] : List Char) = 0 := rfl
      rw [h0]
      simp only [Nat.zero_mul, Nat.zero_add]
      rw [natToDigits_lt_ten _ hvc, digitChar_digitVal c hc, List.nil_append]
    | a1 :: as =>
      have hhead : a1 ≠ '0' := by
        intro h0
        subst h0
        simp [noLeadingZero] at hnlz
      have hm : 1 ≤ digitsToNat (a1 :: as) :=
        digitsToNat_pos a1 as (hdig a1 (by simp)) hhead
      have hbig : ¬ digitsToNat (a1 :: as) * 10 + digitVal c < 10 := by omega
      rw [natToDigits_ge_ten _ hbig]
      have hdiv : (digitsToNat (a1 :: as) * 10 + digitVal c) / 10 = digitsToNat (a1 :: as) := by
        omega
      have hmod : (digitsToNat (a1 :: as) * 10 + digitVal c) % 10 = digitVal c := by
        omega
      rw [hdiv, hmod, digitChar_digitVal c hc]
      rw [ih (by simp) (fun d hd => hdig d (List.mem_append_left _ hd))
            (by simp [noLeadingZero, hhead])]

/-- On a strictly sorted list, find? returns an element least among those
satisfying the test. -/
theorem find?_pairwise_lt_least {l : List Char} {p : Char → Bool} {c : Char}
    (hs : List.Pairwise (fun a b => a < b) l) (h : l.find? p = some c) :
    p c = true ∧ c ∈ l ∧ ∀ d ∈ l, p d = true → c ≤ d := by
  induction l with
  | nil => simp at h
  | cons a l ih =>
    by_cases hpa : p a = true
    · rw [List.find?_cons_of_pos _ hpa, Option.some.injEq] at h
      subst h
      refine ⟨hpa, List.mem_cons_self _ _, ?_⟩
      intro d hd _
      rcases List.mem_cons.mp hd with hd | hd
      · exact le_of_eq hd.symm
      · exact le_of_lt ((List.pairwise_cons.mp hs).1 d hd)
    · rw [List.find?_cons_of_neg _ (by simpa using hpa)] at h
      obtain ⟨hpc, hmem, hmin⟩ := ih (List.pairwise_cons.mp hs).2 h
      refine ⟨hpc, List.mem_cons_of_mem _ hmem, ?_⟩
      intro d hd hpd
      rcases List.mem_cons.mp hd with hd | hd
      · subst hd; exact absurd hpd hpa
      · exact hmin d hd hpd

/-- Catching up a connected state writes the whole backlog to the store,
oldest first, leaving the backlog empty. -/
theorem catchup_connected (b : List LogRecord) (st : List SoftwareLog) :
    catchup ⟨true, b, st⟩ = ⟨true, [], st ++ b.map toSoftwareLog⟩ := by
  induction b generalizing st with
  | nil => rw [catchup]; simp
  | cons r rest ih =>
    rw [catchup]
    simp [emitRecursing, writeRecord]
    rw [ih (st ++ [toSoftwareLog r])]
    simp

/-- Emitting a sequence of records while the connection is down appends them
to the backlog in arrival order and writes nothing. -/
theorem foldl_emit_disconnected (rs : List LogRecord) :
    ∀ (b : List LogRecord) (st : List SoftwareLog),
    List.foldl emit ⟨false, b, st⟩ rs = ⟨false, b ++ rs, st⟩ := by
  induction rs with
  | nil => intro b st; simp
  | cons r rest ih =>
    intro b st
    rw [List.foldl_cons]
    have he : emit ⟨false, b, st⟩ r = ⟨false, b ++ [r], st⟩ := by simp [emit]
    rw [he, ih (b ++ [r]) st]
    simp

/-- C8: while no store connection exists, every record handed to the deferred
log handler is appended to the backlog in arrival order — emission is a total
function that writes nothing to the store — and once a connection becomes
available the backlog is replayed and written oldest first, so the rows reach
the store in their original arrival order. -/
theorem deferred_log_buffer_and_replay (b rs : List LogRecord) (st : List SoftwareLog) :
    List.foldl emit ⟨false, b, st⟩ rs = ⟨false, b ++ rs, st⟩ ∧
    connectDB (List.foldl emit ⟨false, b, st⟩ rs) =
      ⟨true, [], st ++ (b ++ rs).map toSoftwareLog⟩ := by
  refine ⟨foldl_emit_disconnected rs b st, ?_⟩
  rw [foldl_emit_disconnected rs b st]
  exact catchup_connected (b ++ rs) st

/-- C5: Album.is_new holds exactly when now minus date_added is under 180
days; an album added 179 days ago is new and one added 181 days ago is not. -/
theorem is_new_iff_under_180_days (now date_added : Int) :
    (is_new now date_added = true ↔ now - date_added < 180 * secondsPerDay) ∧
    is_new now (now - 179 * secondsPerDay) = true ∧
    is_new now (now - 181 * secondsPerDay) = false := by
  refine ⟨?_, ?_, ?_⟩
  · simp only [is_new, secondsPerDay, decide_eq_true_eq]
    omega
  · simp only [is_new, secondsPerDay, decide_eq_true_eq]
    omega
  · simp only [is_new, secondsPerDay, decide_eq_false_iff_not]
    omega

/-- C9: AlbumReview's constructor leaves date_entered unset when the caller
supplies no date_entered keyword; the now() substitution happens exactly when
the caller supplies a value. -/
theorem album_review_date_entered_only_when_supplied (now : Int) (kw : AlbumReviewKwargs) :
    (kw.date_entered = none → (album_review_init now kw).date_entered = none) ∧
    (∀ v, kw.date_entered = some v → (album_review_init now kw).date_entered = some now) := by
  constructor
  · intro h
    simp [album_review_init, h]
  · intro v h
    simp [album_review_init, h]

/-- Witness for C9: with no date_entered keyword the field stays unset, and a
supplied value 3 at time 100 becomes 100. -/
theorem album_review_date_entered_only_when_supplied_witness :
    (album_review_init 100 ⟨none, none, none, none, none, none⟩).date_entered = none ∧
    (album_review_init 100 ⟨none, none, none, none, some 3, none⟩).date_entered = some 100 :=
  ⟨(album_review_date_entered_only_when_supplied 100 ⟨none, none, none, none, none, none⟩).1 rfl,
   (album_review_date_entered_only_when_supplied 100 ⟨none, none, none, none, some 3, none⟩).2 3 rfl⟩

/-- C1 counterexample: at construction time 100, an AlbumReview built without
a date_entered keyword has no effective date_entered at all — in particular it
is not the construction time — so the substitution is not applied to every
construction. -/
theorem album_review_backdating_counterexample :
    (album_review_init 100 ⟨none, none, none, none, none, none⟩).date_entered ≠ some 100 := by
  simp [album_review_init]

/-- C1 amended: whenever the caller supplies a date_entered value, the
constructed review's date_entered is the construction time now(); a supplied
past value is never kept. -/
theorem album_review_anti_backdating (now v : Int) (kw : AlbumReviewKwargs)
    (h : kw.date_entered = some v) :
    (album_review_init now kw).date_entered = some now := by
  simp [album_review_init, h]

/-- Witness for the amended C1: a review supplied with past time 3 at
construction time 100 carries 100. -/
theorem album_review_anti_backdating_witness :
    (⟨none, none, none, none, some 3, none⟩ : AlbumReviewKwargs).date_entered = some 3 ∧
    (album_review_init 100 ⟨none, none, none, none, some 3, none⟩).date_entered = some 100 :=
  ⟨rfl, album_review_anti_backdating 100 3 ⟨none, none, none, none, some 3, none⟩ rfl⟩

/-- C6: when the owning artist exists under the album's composite key,
Album.id is the artist's tag followed by the album letter, recomputed from the
persisted fields; with genre RK, artist 12, letter b, the id is RK12b. -/
theorem album_id_is_artist_tag_append_letter (store : Store) (al : AlbumRec) (a : ArtistRec)
    (h : find_artist store al.genre_abbr al.artist_num = some a) :
    album_id store al = some (artist_tag a ++ [al.letter]) ∧
    (al.genre_abbr = ['R', 'K'] → al.artist_num = 12 → al.letter = 'b' →
      album_id store al = some ['R', 'K', '1', '2', 'b']) := by
  have hbase : album_id store al = some (artist_tag a ++ [al.letter]) := by
    simp [album_id, h]
  refine ⟨hbase, ?_⟩
  intro hg hn hl
  have hpred := List.find?_some h
  simp only [Bool.and_eq_true, beq_iff_eq] at hpred
  have h12 : natToDigits 12 = ['1', '2'] := by
    have hq : (12 : Nat) / 10 = 1 := by norm_num
    rw [natToDigits_ge_ten 12 (by omega), hq, natToDigits_lt_ten 1 (by omega)]
    decide
  rw [hbase, hl]
  unfold artist_tag
  rw [hpred.1, hpred.2, hg, hn, h12]
  rfl

/-- Witness for C6: a one-artist store and the album RK12b. -/
theorem album_id_is_artist_tag_append_letter_witness :
    find_artist ⟨[⟨['R', 'K'], 12⟩], []⟩ ['R', 'K'] 12 = some ⟨['R', 'K'], 12⟩ ∧
    album_id ⟨[⟨['R', 'K'], 12⟩], []⟩ ⟨['R', 'K'], 12, 'b', [], 0, false⟩ =
      some ['R', 'K', '1', '2', 'b'] :=
  ⟨rfl,
   (album_id_is_artist_tag_append_letter ⟨[⟨['R', 'K'], 12⟩], []⟩
      ⟨['R', 'K'], 12, 'b', [], 0, false⟩ ⟨['R', 'K'], 12⟩ rfl).2 rfl rfl rfl⟩

/-- C10: when no artist row matches both genre_abbr and artist_num, reading
Album.id yields no string at all: the artist dereference fails. -/
theorem album_id_none_without_artist (store : Store) (al : AlbumRec)
    (h : find_artist store al.genre_abbr al.artist_num = none) :
    album_id store al = none := by
  simp [album_id, h]

/-- Witness for C10: an empty store resolves no artist, so the album RK12b has
no readable id. -/
theorem album_id_none_without_artist_witness :
    find_artist ⟨[], []⟩ ['R', 'K'] 12 = none ∧
    album_id ⟨[], []⟩ ⟨['R', 'K'], 12, 'b', [], 0, false⟩ = none :=
  ⟨rfl, album_id_none_without_artist ⟨[], []⟩ ⟨['R', 'K'], 12, 'b', [], 0, false⟩ rfl⟩

/-- C4: when no letter is present after tag decomposition and no artist row
matches the resolved (genre_abbr, artist_num), Album construction fails with
ArtistNotFound instead of producing a record. -/
theorem album_init_artist_not_found (store : Store) (now : Int) (kw kw2 : AlbumKwargs)
    (g : List Char) (n : Nat)
    (hres : album_resolve_kwargs kw = Except.ok kw2)
    (hletter : kw2.letter = none)
    (hg : kw2.genre_abbr = some g) (hn : kw2.artist_num = some n)
    (ha : find_artist store g n = none) :
    album_init store now kw = Except.error CatalogError.artistNotFound := by
  unfold album_init
  rw [hres]
  show (album_resolve_letter store kw2).map (album_apply_defaults now) =
    Except.error CatalogError.artistNotFound
  unfold album_resolve_letter
  rw [hletter, hg, hn]
  simp only [ha]
  rfl

/-- Witness for C4: constructing an album for the missing artist RK12 against
an empty store fails with ArtistNotFound. -/
theorem album_init_artist_not_found_witness :
    album_resolve_kwargs ⟨none, some ['R', 'K'], some 12, none, none, none, none⟩ =
      Except.ok ⟨none, some ['R', 'K'], some 12, none, none, none, none⟩ ∧
    find_artist ⟨[], []⟩ ['R', 'K'] 12 = none ∧
    album_init ⟨[], []⟩ 0 ⟨none, some ['R', 'K'], some 12, none, none, none, none⟩ =
      Except.error CatalogError.artistNotFound :=
  ⟨rfl, rfl,
   album_init_artist_not_found ⟨[], []⟩ 0 ⟨none, some ['R', 'K'], some 12, none, none, none, none⟩
     ⟨none, some ['R', 'K'], some 12, none, none, none, none⟩ ['R', 'K'] 12 rfl rfl rfl rfl rfl⟩

/-- C2: constructing an Album without a letter, when the owning artist exists
and at least one letter of a..z is still free, assigns the lexicographically
smallest letter not in use by that artist's albums — gap-filling, not
count-plus-one; with used letters a and c the allocated letter is b. -/
theorem album_init_assigns_smallest_free_letter (store : Store) (now : Int)
    (kw : AlbumKwargs) (g : List Char) (n : Nat) (a : ArtistRec)
    (hid : kw.id = none) (hletter : kw.letter = none)
    (hg : kw.genre_abbr = some g) (hn : kw.artist_num = some n)
    (ha : find_artist store g n = some a)
    (hfree : ∃ d ∈ alphabet,
      (artist_album_letters store a.genre_abbr a.number).contains d = false) :
    ∃ c kw2, album_init store now kw = Except.ok kw2 ∧ kw2.letter = some c ∧
      c ∈ alphabet ∧
      (artist_album_letters store a.genre_abbr a.number).contains c = false ∧
      (∀ d ∈ alphabet,
        (artist_album_letters store a.genre_abbr a.number).contains d = false → c ≤ d) ∧
      (artist_album_letters store a.genre_abbr a.number = ['a', 'c'] → c = 'b') := by
  obtain ⟨c, hfind⟩ : ∃ c,
      next_album_letter (artist_album_letters store a.genre_abbr a.number) = some c := by
    apply Option.isSome_iff_exists.mp
    unfold next_album_letter
    rw [List.find?_isSome]
    obtain ⟨d, hd, hdf⟩ := hfree
    exact ⟨d, hd, by simpa using hdf⟩
  have hfind2 : alphabet.find?
      (fun c => !((artist_album_letters store a.genre_abbr a.number).contains c)) = some c :=
    hfind
  obtain ⟨hpc, hmem, hleast⟩ :=
    find?_pairwise_lt_least (by decide : List.Pairwise (fun a b => a < b) alphabet) hfind2
  have h1 : album_resolve_kwargs kw = Except.ok kw := by
    unfold album_resolve_kwargs
    rw [hid]
  have h2 : album_init store now kw =
      Except.ok (album_apply_defaults now { kw with letter := some c }) := by
    unfold album_init
    rw [h1]
    show (album_resolve_letter store kw).map (album_apply_defaults now) = _
    unfold album_resolve_letter
    rw [hletter, hg, hn]
    simp only [ha, hfind]
    rfl
  refine ⟨c, album_apply_defaults now { kw with letter := some c }, h2, rfl, hmem, ?_, ?_, ?_⟩
  · simpa using hpc
  · intro d hd hdf
    exact hleast d hd (by simpa using hdf)
  · intro hused
    rw [hused] at hfind
    have hb : next_album_letter ['a', 'c'] = some 'b' := by decide
    rw [hb, Option.some.injEq] at hfind
    exact hfind.symm

/-- Witness for C2: an artist RK12 owning albums with letters a and c; the
constructor allocates b. -/
theorem album_init_assigns_smallest_free_letter_witness :
    (∃ d ∈ alphabet,
      (artist_album_letters
        ⟨[⟨['R', 'K'], 12⟩],
         [⟨['R', 'K'], 12, 'a', [], 0, false⟩, ⟨['R', 'K'], 12, 'c', [], 0, false⟩]⟩
        (⟨['R', 'K'], 12⟩ : ArtistRec).genre_abbr
        (⟨['R', 'K'], 12⟩ : ArtistRec).number).contains d = false) ∧
    (∃ c kw2, album_init
        ⟨[⟨['R', 'K'], 12⟩],
         [⟨['R', 'K'], 12, 'a', [], 0, false⟩, ⟨['R', 'K'], 12, 'c', [], 0, false⟩]⟩
        0 ⟨none, some ['R', 'K'], some 12, none, none, none, none⟩ = Except.ok kw2 ∧
      kw2.letter = some c ∧ c ∈ alphabet ∧
      (artist_album_letters
        ⟨[⟨['R', 'K'], 12⟩],
         [⟨['R', 'K'], 12, 'a', [], 0, false⟩, ⟨['R', 'K'], 12, 'c', [], 0, false⟩]⟩
        (⟨['R', 'K'], 12⟩ : ArtistRec).genre_abbr
        (⟨['R', 'K'], 12⟩ : ArtistRec).number).contains c = false ∧
      (∀ d ∈ alphabet,
        (artist_album_letters
          ⟨[⟨['R', 'K'], 12⟩],
           [⟨['R', 'K'], 12, 'a', [], 0, false⟩, ⟨['R', 'K'], 12, 'c', [], 0, false⟩]⟩
          (⟨['R', 'K'], 12⟩ : ArtistRec).genre_abbr
          (⟨['R', 'K'], 12⟩ : ArtistRec).number).contains d = false → c ≤ d) ∧
      (artist_album_letters
        ⟨[⟨['R', 'K'], 12⟩],
         [⟨['R', 'K'], 12, 'a', [], 0, false⟩, ⟨['R', 'K'], 12, 'c', [], 0, false⟩]⟩
        (⟨['R', 'K'], 12⟩ : ArtistRec).genre_abbr
        (⟨['R', 'K'], 12⟩ : ArtistRec).number = ['a', 'c'] → c = 'b')) :=
  ⟨by decide,
   album_init_assigns_smallest_free_letter
     ⟨[⟨['R', 'K'], 12⟩],
      [⟨['R', 'K'], 12, 'a', [], 0, false⟩, ⟨['R', 'K'], 12, 'c', [], 0, false⟩]⟩
     0 ⟨none, some ['R', 'K'], some 12, none, none, none, none⟩ ['R', 'K'] 12 ⟨['R', 'K'], 12⟩
     rfl rfl rfl rfl rfl (by decide)⟩

/-- C7: when all 26 letters a..z are taken for the owning artist, Album
construction without a letter fails with LetterSpaceExhausted; the allocator
only ever yields single letters drawn from a..z, never wrapping around. -/
theorem album_init_letter_space_exhausted (store : Store) (now : Int)
    (kw : AlbumKwargs) (g : List Char) (n : Nat) (a : ArtistRec)
    (hid : kw.id = none) (hletter : kw.letter = none)
    (hg : kw.genre_abbr = some g) (hn : kw.artist_num = some n)
    (ha : find_artist store g n = some a)
    (hfull : ∀ d ∈ alphabet,
      (artist_album_letters store a.genre_abbr a.number).contains d = true) :
    album_init store now kw = Except.error CatalogError.letterSpaceExhausted ∧
    ∀ (used : List Char) (c : Char), next_album_letter used = some c → c ∈ alphabet := by
  constructor
  · have hnone : next_album_letter (artist_album_letters store a.genre_abbr a.number) = none := by
      unfold next_album_letter
      rw [List.find?_eq_none]
      intro x hx
      simpa using hfull x hx
    have h1 : album_resolve_kwargs kw = Except.ok kw := by
      unfold album_resolve_kwargs
      rw [hid]
    unfold album_init
    rw [h1]
    show (album_resolve_letter store kw).map (album_apply_defaults now) = _
    unfold album_resolve_letter
    rw [hletter, hg, hn]
    simp only [ha, hnone]
    rfl
  · intro used c hc
    exact List.mem_of_find?_eq_some hc

/-- Witness for C7: an artist RK12 owning one album per letter of a..z;
construction fails with LetterSpaceExhausted. -/
theorem album_init_letter_space_exhausted_witness :
    (∀ d ∈ alphabet,
      (artist_album_letters
        ⟨[⟨['R', 'K'], 12⟩],
         alphabet.map (fun c => (⟨['R', 'K'], 12, c, [], 0, false⟩ : AlbumRec))⟩
        (⟨['R', 'K'], 12⟩ : ArtistRec).genre_abbr
        (⟨['R', 'K'], 12⟩ : ArtistRec).number).contains d = true) ∧
    album_init
      ⟨[⟨['R', 'K'], 12⟩],
       alphabet.map (fun c => (⟨['R', 'K'], 12, c, [], 0, false⟩ : AlbumRec))⟩
      0 ⟨none, some ['R', 'K'], some 12, none, none, none, none⟩ =
      Except.error CatalogError.letterSpaceExhausted :=
  ⟨by decide,
   (album_init_letter_space_exhausted
     ⟨[⟨['R', 'K'], 12⟩],
      alphabet.map (fun c => (⟨['R', 'K'], 12, c, [], 0, false⟩ : AlbumRec))⟩
     0 ⟨none, some ['R', 'K'], some 12, none, none, none, none⟩ ['R', 'K'] 12 ⟨['R', 'K'], 12⟩
     rfl rfl rfl rfl rfl (by decide)).1⟩

/-- Decomposing a composed tag recovers the parts, for a two-character genre
abbreviation and an optional non-digit album letter. -/
theorem decompose_compose (g1 g2 : Char) (n : Nat) (l : Option Char)
    (hl : ∀ c ∈ l.toList, isDigitChar c = false) :
    decompose_tag (compose_tag [g1, g2] n l) = some ⟨[g1, g2], n, l⟩ := by
  have hall := natToDigits_all_digit n
  have hne := natToDigits_ne_nil n
  cases l with
  | none =>
    have hcomp : compose_tag [g1, g2] n none = g1 :: g2 :: natToDigits n := by
      simp [compose_tag]
    rw [hcomp]
    simp only [decompose_tag]
    rw [List.takeWhile_eq_self_iff.mpr hall, List.dropWhile_eq_nil_iff.mpr hall]
    rw [if_neg (by simp [hne]), if_neg (by simp [hne])]
    rw [digitsToNat_natToDigits]
  | some c =>
    have hcl : isDigitChar c = false := hl c (by simp)
    have hcomp : compose_tag [g1, g2] n (some c) = g1 :: g2 :: (natToDigits n ++ [c]) := by
      simp [compose_tag]
    rw [hcomp]
    simp only [decompose_tag]
    rw [List.takeWhile_append_of_pos hall, List.dropWhile_append_of_pos hall]
    rw [List.takeWhile_cons_of_neg (by simp [hcl]), List.dropWhile_cons_of_neg (by simp [hcl])]
    rw [List.append_nil]
    rw [if_neg (by simp), if_neg (by simp [hne])]
    rw [digitsToNat_natToDigits]

/-- Composing a decomposed tag recovers the tag when the artist-number segment
carries no leading zero. -/
theorem compose_decompose (tag : List Char) (d : DecomposedTag)
    (h : decompose_tag tag = some d)
    (hnlz : noLeadingZero ((tag.drop 2).takeWhile isDigitChar) = true) :
    compose_tag d.genre_abbr d.artist_num d.album_letter = tag := by
  match tag with
  | [] => simp [decompose_tag] at h
  | [g1] => simp [decompose_tag] at h
  | g1 :: g2 :: rest =>
    simp only [decompose_tag] at h
    by_cases h1 : rest.isEmpty = true
    · rw [if_pos h1] at h
      exact absurd h (by simp)
    rw [if_neg h1] at h
    by_cases h2 : (rest.takeWhile isDigitChar).isEmpty = true
    · rw [if_pos h2] at h
      exact absurd h (by simp)
    rw [if_neg h2] at h
    have hds_ne : rest.takeWhile isDigitChar ≠ [] := by
      intro hnil
      rw [hnil] at h2
      exact h2 rfl
    have hds_dig : ∀ c ∈ rest.takeWhile isDigitChar, isDigitChar c = true :=
      fun c hc => List.mem_takeWhile_imp hc
    have hnlz2 : noLeadingZero (rest.takeWhile isDigitChar) = true := by
      simpa using hnlz
    have hrt : natToDigits (digitsToNat (rest.takeWhile isDigitChar)) =
        rest.takeWhile isDigitChar :=
      natToDigits_digitsToNat _ hds_ne hds_dig hnlz2
    rcases hdw : rest.dropWhile isDigitChar with _ | ⟨c, _ | ⟨c2, cs⟩⟩
    · rw [hdw] at h
      rw [Option.some.injEq] at h
      subst h
      simp only [compose_tag]
      rw [hrt, List.append_nil]
      have hsplit := List.takeWhile_append_dropWhile isDigitChar rest
      rw [hdw, List.append_nil] at hsplit
      rw [hsplit]
      rfl
    · rw [hdw] at h
      rw [Option.some.injEq] at h
      subst h
      simp only [compose_tag]
      rw [hrt]
      have hsplit := List.takeWhile_append_dropWhile isDigitChar rest
      rw [hdw] at hsplit
      rw [List.append_assoc, hsplit]
      rfl
    · rw [hdw] at h
      exact absurd h (by simp)

/-- C3 counterexample: the tag AB01 is accepted by decompose, with artist
number 1, but composing that decomposition yields AB1, not the original tag,
so the law compose(decompose(tag)) = tag fails as stated. -/
theorem codec_round_trip_counterexample :
    decompose_tag ['A', 'B', '0', '1'] = some ⟨['A', 'B'], 1, none⟩ ∧
    compose_tag ['A', 'B'] 1 none ≠ ['A', 'B', '0', '1'] := by
  constructor
  · rfl
  · unfold compose_tag
    rw [natToDigits_lt_ten 1 (by omega)]
    decide

/-- C3 amended: decompose after compose returns the parts for every valid
input (two-character genre abbreviation, any artist number, optional non-digit
album letter), and compose after decompose returns the original tag for every
accepted tag whose artist-number segment carries no leading zero. -/
theorem codec_round_trip (g1 g2 : Char) (n : Nat) (l : Option Char)
    (hl : ∀ c ∈ l.toList, isDigitChar c = false) :
    decompose_tag (compose_tag [g1, g2] n l) = some ⟨[g1, g2], n, l⟩ ∧
    ∀ (tag : List Char) (d : DecomposedTag), decompose_tag tag = some d →
      noLeadingZero ((tag.drop 2).takeWhile isDigitChar) = true →
      compose_tag d.genre_abbr d.artist_num d.album_letter = tag :=
  ⟨decompose_compose g1 g2 n l hl,
   fun tag d h hn => compose_decompose tag d h hn⟩

/-- Witness for the amended C3: instantiated at genre RK, artist 12, letter b. -/
theorem codec_round_trip_witness :
    (∀ c ∈ (some 'b').toList, isDigitChar c = false) ∧
    (decompose_tag (compose_tag ['R', 'K'] 12 (some 'b')) = some ⟨['R', 'K'], 12, some 'b'⟩ ∧
     ∀ (tag : List Char) (d : DecomposedTag), decompose_tag tag = some d →
       noLeadingZero ((tag.drop 2).takeWhile isDigitChar) = true →
       compose_tag d.genre_abbr d.artist_num d.album_letter = tag) :=
  ⟨by decide, codec_round_trip 'R' 'K' 12 (some 'b') (by decide)⟩

end Klap4


